import Mathlib

/-!
Verification of the motor-control cores of the Ciberfisica_IA repository.

Two programs are modelled, each as a shallow embedding:

* `FutbolSumo` — the sumo-robot driver (`src/Telem_Seguidor/FutbolSumo.ino`):
  a command interpreter over single characters, a direction state machine
  with opposite-sense braking, and a slew-rate-limited dual-motor PWM ramp.
  Machine `int`s are modelled as `ℤ` (all values handled stay far below any
  platform width); C integer division is `Int.tdiv` (truncation toward 0);
  pin and PWM writes and `delay` calls are recorded as an explicit event
  trace so that temporal ordering claims can be stated.

* `TelemSeguidor` — the line follower (`src/Telem_Seguidor/Telem_Seguidor.ino`):
  a PD correction loop and a line-oriented command protocol.  Arduino
  `String`s are modelled as `List Char`; `float` is modelled as `ℚ` (the
  constants exercised here — 0.25, 6.0, integer-valued products — are exact
  in binary floating point, and the parsing claims are insensitive to
  rounding); the C cast `(int)` is truncation toward zero.
-/

/-- Arduino's `constrain(x, lo, hi)` macro: `x < lo ? lo : (x > hi ? hi : x)`. -/
def constrain (x lo hi : ℤ) : ℤ :=
  if x < lo then lo else if x > hi then hi else x

namespace FutbolSumo

/-- `#define MAX_PWM 255` (8-bit PWM resolution). -/
def MAX_PWM : ℤ := 255

/-- `#define RAMP_STEP 4` — per-iteration PWM increment of the anti-spike ramp. -/
def RAMP_STEP : ℤ := 4

/-- `#define RAMP_DELAY 8` — inter-step delay of the ramp, in ms. -/
def RAMP_DELAY : ℕ := 8

/-- `#define DIR_CHANGE_BRAKE_MS 60` — brake hold when inverting sense. -/
def DIR_CHANGE_BRAKE_MS : ℕ := 60

/-- The mutable globals of `FutbolSumo.ino`: `speedLevel`, `currentDir`,
`currentPWMA/B`, plus the four H-bridge direction pins `AIN1,AIN2,BIN1,BIN2`
(the last values written with `digitalWrite`). -/
structure SumoState where
  speedLevel : ℤ
  currentDir : Char
  currentPWMA : ℤ
  currentPWMB : ℤ
  ain1 : Bool
  ain2 : Bool
  bin1 : Bool
  bin2 : Bool
deriving DecidableEq

/-- Observable hardware events, in program order: a simultaneous write of the
four direction pins, a write of both PWM duty values (`ledcWrite` on PWMA then
PWMB), or a `delay(ms)` call. -/
inductive Ev where
  | pins (a1 a2 b1 b2 : Bool)
  | pwm (a b : ℤ)
  | delayMs (ms : ℕ)
deriving DecidableEq

/-- One per-motor update of the ramp loop body of `setMotors`:
`if (cur < target) cur = min(cur + RAMP_STEP, target);
 else if (cur > target) cur = max(cur - RAMP_STEP, target);`. -/
def rampStep1 (cur target : ℤ) : ℤ :=
  if cur < target then min (cur + RAMP_STEP) target
  else if cur > target then max (cur - RAMP_STEP) target
  else cur

theorem rampStep1_closer (c t : ℤ) (h : c ≠ t) :
    (rampStep1 c t - t).natAbs < (c - t).natAbs := by
  unfold rampStep1 RAMP_STEP
  split
  · omega
  · split <;> omega

theorem rampStep1_dist_le (c t : ℤ) :
    (rampStep1 c t - t).natAbs ≤ (c - t).natAbs := by
  unfold rampStep1 RAMP_STEP
  split
  · omega
  · split <;> omega

theorem rampStep1_bounds (c t : ℤ) (hc0 : 0 ≤ c) (hc1 : c ≤ MAX_PWM)
    (ht0 : 0 ≤ t) (ht1 : t ≤ MAX_PWM) :
    0 ≤ rampStep1 c t ∧ rampStep1 c t ≤ MAX_PWM := by
  unfold rampStep1 RAMP_STEP MAX_PWM at *
  split
  · omega
  · split <;> omega

/-- The `while (currentPWMA != targetA || currentPWMB != targetB)` ramp loop of
`setMotors`: each iteration moves both applied PWM values one `rampStep1`
toward their targets, then writes both duty values and delays `RAMP_DELAY`.
Returns the final `(currentPWMA, currentPWMB)` and the emitted event trace. -/
def rampLoop (a b ta tb : ℤ) : (ℤ × ℤ) × List Ev :=
  if a = ta ∧ b = tb then ((a, b), [])
  else
    let a' := rampStep1 a ta
    let b' := rampStep1 b tb
    let rest := rampLoop a' b' ta tb
    (rest.1, Ev.pwm a' b' :: Ev.delayMs RAMP_DELAY :: rest.2)
termination_by (a - ta).natAbs + (b - tb).natAbs
decreasing_by
  rcases Decidable.em (a = ta) with h1 | h1
  · have h2 : b ≠ tb := by tauto
    have := rampStep1_closer b tb h2
    have := rampStep1_dist_le a ta
    omega
  · have := rampStep1_closer a ta h1
    have := rampStep1_dist_le b tb
    omega

/-- `setMotors(targetA, targetB, ain1, ain2, bin1, bin2)`: constrains both
targets into `[0, MAX_PWM]`, writes the four direction pins immediately, then
runs the blocking ramp loop until both applied PWM values equal their
targets. -/
def setMotors (targetA targetB : ℤ) (a1 a2 b1 b2 : Bool) (s : SumoState) :
    SumoState × List Ev :=
  let tA := constrain targetA 0 MAX_PWM
  let tB := constrain targetB 0 MAX_PWM
  let r := rampLoop s.currentPWMA s.currentPWMB tA tB
  ({ s with currentPWMA := r.1.1, currentPWMB := r.1.2,
            ain1 := a1, ain2 := a2, bin1 := b1, bin2 := b2 },
   Ev.pins a1 a2 b1 b2 :: r.2)

/-- `Stop()`: zeroes both applied PWM values, writes duty 0 to both channels,
then drives all four direction pins LOW.  No ramp and no delay. -/
def Stop (s : SumoState) : SumoState × List Ev :=
  ({ s with currentPWMA := 0, currentPWMB := 0,
            ain1 := false, ain2 := false, bin1 := false, bin2 := false },
   [Ev.pwm 0 0, Ev.pins false false false false])

/-- `Forward()`: both motors at `speedLevel`, pins `HIGH,LOW,HIGH,LOW`. -/
def Forward (s : SumoState) : SumoState × List Ev :=
  setMotors s.speedLevel s.speedLevel true false true false s

/-- `Backward()`: both motors at `speedLevel`, pins `LOW,HIGH,LOW,HIGH`. -/
def Backward (s : SumoState) : SumoState × List Ev :=
  setMotors s.speedLevel s.speedLevel false true false true s

/-- `Left()`: in-place turn, `turn = (speedLevel * 85) / 100` on both motors,
motor A forward / motor B backward pins. -/
def Left (s : SumoState) : SumoState × List Ev :=
  let turn := Int.tdiv (s.speedLevel * 85) 100
  setMotors turn turn true false false true s

/-- `Right()`: in-place turn, `turn = (speedLevel * 85) / 100` on both motors,
motor A backward / motor B forward pins. -/
def Right (s : SumoState) : SumoState × List Ev :=
  let turn := Int.tdiv (s.speedLevel * 85) 100
  setMotors turn turn false true true false s

/-- `ForwardLeft()`: diagonal curve, motor A at `speedLevel / 2`, motor B at
`speedLevel`, forward pins on both. -/
def ForwardLeft (s : SumoState) : SumoState × List Ev :=
  let slow := Int.tdiv s.speedLevel 2
  setMotors slow s.speedLevel true false true false s

/-- `ForwardRight()`: diagonal curve, motor A at `speedLevel`, motor B at
`speedLevel / 2`, forward pins on both. -/
def ForwardRight (s : SumoState) : SumoState × List Ev :=
  let slow := Int.tdiv s.speedLevel 2
  setMotors s.speedLevel slow true false true false s

/-- `BackLeft()`: diagonal curve, motor A at `speedLevel / 2`, motor B at
`speedLevel`, backward pins on both. -/
def BackLeft (s : SumoState) : SumoState × List Ev :=
  let slow := Int.tdiv s.speedLevel 2
  setMotors slow s.speedLevel false true false true s

/-- `BackRight()`: diagonal curve, motor A at `speedLevel`, motor B at
`speedLevel / 2`, backward pins on both. -/
def BackRight (s : SumoState) : SumoState × List Ev :=
  let slow := Int.tdiv s.speedLevel 2
  setMotors s.speedLevel slow false true false true s

/-- `applyCurrentDir()`: dispatch on `currentDir`; any unknown tag falls to
`Stop` (the `default` arm of the switch). -/
def applyCurrentDir (s : SumoState) : SumoState × List Ev :=
  if s.currentDir = 'F' then Forward s
  else if s.currentDir = 'B' then Backward s
  else if s.currentDir = 'L' then Left s
  else if s.currentDir = 'R' then Right s
  else if s.currentDir = 'G' then ForwardLeft s
  else if s.currentDir = 'I' then ForwardRight s
  else if s.currentDir = 'H' then BackLeft s
  else if s.currentDir = 'J' then BackRight s
  else Stop s

/-- `isForwardSense(d)`: `d` is `'F'`, `'G'` or `'I'`. -/
def isForwardSense (d : Char) : Bool :=
  d == 'F' || d == 'G' || d == 'I'

/-- `isBackwardSense(d)`: `d` is `'B'`, `'H'` or `'J'`. -/
def isBackwardSense (d : Char) : Bool :=
  d == 'B' || d == 'H' || d == 'J'

/-- `isOppositeSense(oldDir, newDir)`: never true when either side is `'S'`;
otherwise true exactly when the two directions lie in opposite sense
families. -/
def isOppositeSense (oldDir newDir : Char) : Bool :=
  if oldDir == 'S' || newDir == 'S' then false
  else (isForwardSense oldDir && isBackwardSense newDir) ||
       (isBackwardSense oldDir && isForwardSense newDir)

/-- `commandMove(newDir)`: on an opposite-sense change, `Stop()` then
`delay(DIR_CHANGE_BRAKE_MS)`; in all cases set `currentDir = newDir` and run
`applyCurrentDir()`. -/
def commandMove (newDir : Char) (s : SumoState) : SumoState × List Ev :=
  if isOppositeSense s.currentDir newDir then
    let r1 := Stop s
    let r2 := applyCurrentDir { r1.1 with currentDir := newDir }
    (r2.1, r1.2 ++ Ev.delayMs DIR_CHANGE_BRAKE_MS :: r2.2)
  else
    let r2 := applyCurrentDir { s with currentDir := newDir }
    r2

/-- The `if (value >= 'a' && value <= 'z') value = value - 32;` normalization
of `loop()`. -/
def toUpperAscii (c : Char) : Char :=
  if 'a' ≤ c ∧ c ≤ 'z' then Char.ofNat (c.toNat - 32) else c

/-- The dispatch of `loop()` on the (already uppercased) received character:
digits set `speedLevel = map(digit*10, 0, 100, 0, MAX_PWM)` and re-apply the
current direction, `'Q'` sets `speedLevel = MAX_PWM` and re-applies, the nine
direction letters invoke `commandMove`, anything else is ignored. -/
def commandStep (value : Char) (s : SumoState) : SumoState × List Ev :=
  if '0' ≤ value ∧ value ≤ '9' then
    applyCurrentDir { s with speedLevel := Int.tdiv ((((value.toNat : ℤ) - ('0'.toNat : ℤ)) * 10) * MAX_PWM) 100 }
  else if value = 'Q' then
    applyCurrentDir { s with speedLevel := MAX_PWM }
  else if value = 'F' ∨ value = 'B' ∨ value = 'S' ∨ value = 'L' ∨ value = 'R'
       ∨ value = 'G' ∨ value = 'I' ∨ value = 'H' ∨ value = 'J' then
    commandMove value s
  else (s, [])

/-- The per-character body of `loop()`: normalize to uppercase, then
dispatch. -/
def processChar (value0 : Char) (s : SumoState) : SumoState × List Ev :=
  commandStep (toUpperAscii value0) s

/-- A pin-write event is safe when neither motor's direction-pin pair is
driven HIGH on both pins; all other events are trivially safe. -/
def pinsOkB : Ev → Bool
  | Ev.pins a1 a2 b1 b2 => !(a1 && a2) && !(b1 && b2)
  | _ => true

/-- A PWM-write event is in range when both duty values lie in `[0, MAX_PWM]`;
all other events are trivially in range. -/
def pwmInRange : Ev → Bool
  | Ev.pwm a b => decide (0 ≤ a ∧ a ≤ MAX_PWM ∧ 0 ≤ b ∧ b ≤ MAX_PWM)
  | _ => true

/-- The state after `setup()`: `speedLevel = MAX_PWM`, direction `'S'`, both
applied PWM values and all four pins zero (set by the initial `Stop()`). -/
def s0 : SumoState :=
  { speedLevel := MAX_PWM, currentDir := 'S', currentPWMA := 0, currentPWMB := 0,
    ain1 := false, ain2 := false, bin1 := false, bin2 := false }

/-- `s0` after entering direction `'F'` at full speed. -/
def sF : SumoState := { s0 with currentDir := 'F' }

/-- The state after processing `'L'` from `s0`: in-place left turn at
`(255*85)/100 = 216` PWM on both motors, pins `HIGH,LOW,LOW,HIGH`. -/
def sL : SumoState :=
  { speedLevel := MAX_PWM, currentDir := 'L', currentPWMA := 216, currentPWMB := 216,
    ain1 := true, ain2 := false, bin1 := false, bin2 := true }

/-- The state reached just after the brake `Stop()` of an opposite-sense
change into direction `d`: both PWM values zero, all pins LOW, direction
already set to `d`. -/
def stopped (s : SumoState) (d : Char) : SumoState :=
  { s with currentPWMA := 0, currentPWMB := 0, ain1 := false, ain2 := false,
           bin1 := false, bin2 := false, currentDir := d }

/-- The observable outcome of one motor command: final applied PWM pair and
final direction-pin values. -/
def drivesTo (r : SumoState × List Ev) (pa pb : ℤ) (x1 x2 x3 x4 : Bool) : Prop :=
  r.1.currentPWMA = pa ∧ r.1.currentPWMB = pb ∧
  r.1.ain1 = x1 ∧ r.1.ain2 = x2 ∧ r.1.bin1 = x3 ∧ r.1.bin2 = x4


/-- The ramp loop always ends with both applied PWM values at their targets. -/
theorem rampLoop_fst (a b ta tb : ℤ) : (rampLoop a b ta tb).1 = (ta, tb) := by
  induction a, b, ta, tb using rampLoop.induct with
  | case1 a b ta tb h =>
    rw [rampLoop]
    simp [h.1, h.2]
  | case2 a b ta tb h a2 b2 ih =>
    rw [rampLoop]
    simp only [if_neg h]
    exact ih

theorem constrain_eq_self (x lo hi : ℤ) (h1 : lo ≤ x) (h2 : x ≤ hi) :
    constrain x lo hi = x := by
  unfold constrain
  split
  · omega
  · split <;> omega

theorem constrain_eq_clamp (x hi : ℤ) (h : 0 ≤ hi) :
    constrain x 0 hi = max 0 (min x hi) := by
  unfold constrain
  split
  · omega
  · split <;> omega

/-- Final state of `setMotors`: direction pins as passed, applied PWM values
at the constrained targets, all other fields untouched. -/
theorem setMotors_fst (targetA targetB : ℤ) (a1 a2 b1 b2 : Bool) (s : SumoState) :
    (setMotors targetA targetB a1 a2 b1 b2 s).1 =
      { s with currentPWMA := constrain targetA 0 MAX_PWM,
               currentPWMB := constrain targetB 0 MAX_PWM,
               ain1 := a1, ain2 := a2, bin1 := b1, bin2 := b2 } := by
  unfold setMotors
  simp [rampLoop_fst]

theorem turn_tdiv_bounds (sl : ℤ) (h0 : 0 ≤ sl) (h1 : sl ≤ MAX_PWM) :
    0 ≤ Int.tdiv (sl * 85) 100 ∧ Int.tdiv (sl * 85) 100 ≤ MAX_PWM ∧
    0 ≤ Int.tdiv sl 2 ∧ Int.tdiv sl 2 ≤ MAX_PWM := by
  rw [Int.tdiv_eq_ediv (mul_nonneg h0 (by norm_num)) (by norm_num),
      Int.tdiv_eq_ediv h0 (by norm_num)]
  unfold MAX_PWM at *
  refine ⟨?_, ?_, ?_, ?_⟩ <;> omega

theorem isOppositeSense_of_families (c d : Char)
    (h : (isForwardSense c && isBackwardSense d) = true ∨
         (isBackwardSense c && isForwardSense d) = true) :
    isOppositeSense c d = true := by
  simp only [isForwardSense, isBackwardSense, Bool.and_eq_true, Bool.or_eq_true,
    beq_iff_eq] at h
  rcases h with ⟨hc, hd⟩ | ⟨hc, hd⟩ <;>
    rcases hc with (hc | hc) | hc <;> rcases hd with (hd | hd) | hd <;>
    subst_vars <;> decide

theorem isOppositeSense_false_SLR (c d : Char)
    (h : c = 'S' ∨ d = 'S' ∨ c = 'L' ∨ c = 'R' ∨ d = 'L' ∨ d = 'R') :
    isOppositeSense c d = false := by
  rcases h with h | h | h | h | h | h <;> subst h <;>
    simp [isOppositeSense, isForwardSense, isBackwardSense]

theorem rampLoop_all_pinsOk (a b ta tb : ℤ) :
    ((rampLoop a b ta tb).2.all pinsOkB) = true := by
  induction a, b, ta, tb using rampLoop.induct with
  | case1 a b ta tb h =>
    rw [rampLoop]
    simp [h.1, h.2]
  | case2 a b ta tb h a2 b2 ih =>
    rw [rampLoop]
    simp only [if_neg h, List.all_cons]
    simp only [pinsOkB, Bool.true_and]
    exact ih

theorem rampLoop_all_pwmInRange (a b ta tb : ℤ)
    (ha0 : 0 ≤ a) (ha1 : a ≤ MAX_PWM) (hb0 : 0 ≤ b) (hb1 : b ≤ MAX_PWM)
    (hta0 : 0 ≤ ta) (hta1 : ta ≤ MAX_PWM) (htb0 : 0 ≤ tb) (htb1 : tb ≤ MAX_PWM) :
    ((rampLoop a b ta tb).2.all pwmInRange) = true := by
  revert ha0 ha1 hb0 hb1 hta0 hta1 htb0 htb1
  induction a, b, ta, tb using rampLoop.induct with
  | case1 a b ta tb h =>
    intro _ _ _ _ _ _ _ _
    rw [rampLoop]
    simp [h.1, h.2]
  | case2 a b ta tb h a2 b2 ih =>
    intro ha0 ha1 hb0 hb1 hta0 hta1 htb0 htb1
    have hA := rampStep1_bounds a ta ha0 ha1 hta0 hta1
    have hB := rampStep1_bounds b tb hb0 hb1 htb0 htb1
    rw [rampLoop]
    simp only [if_neg h, List.all_cons, Bool.and_eq_true]
    refine ⟨?_, ?_, ?_⟩
    · simp [pwmInRange]
      exact ⟨hA.1, hA.2, hB.1, hB.2⟩
    · rfl
    · exact ih hA.1 hA.2 hB.1 hB.2 hta0 hta1 htb0 htb1

theorem setMotors_all_pinsOk (t u : ℤ) (a1 a2 b1 b2 : Bool) (s : SumoState)
    (h : (!(a1 && a2) && !(b1 && b2)) = true) :
    ((setMotors t u a1 a2 b1 b2 s).2.all pinsOkB) = true := by
  unfold setMotors
  simp only [List.all_cons, Bool.and_eq_true]
  exact ⟨h, rampLoop_all_pinsOk _ _ _ _⟩

theorem Stop_all_pinsOk (s : SumoState) : (( Stop s).2.all pinsOkB) = true := by
  simp [Stop, pinsOkB]

theorem applyCurrentDir_all_pinsOk (s : SumoState) :
    ((applyCurrentDir s).2.all pinsOkB) = true := by
  unfold applyCurrentDir
  split_ifs <;>
    first
      | exact setMotors_all_pinsOk _ _ _ _ _ _ _ (by decide)
      | exact Stop_all_pinsOk _

theorem commandMove_all_pinsOk (d : Char) (s : SumoState) :
    ((commandMove d s).2.all pinsOkB) = true := by
  unfold commandMove
  split_ifs
  · simp only [List.all_append, List.all_cons, Bool.and_eq_true]
    exact ⟨Stop_all_pinsOk s, rfl, applyCurrentDir_all_pinsOk _⟩
  · exact applyCurrentDir_all_pinsOk _

theorem commandStep_all_pinsOk (c : Char) (s : SumoState) :
    ((commandStep c s).2.all pinsOkB) = true := by
  unfold commandStep
  split_ifs <;>
    first
      | exact applyCurrentDir_all_pinsOk _
      | exact commandMove_all_pinsOk _ _
      | rfl

theorem processChar_all_pinsOk (c : Char) (s : SumoState) :
    ((processChar c s).2.all pinsOkB) = true :=
  commandStep_all_pinsOk _ _

theorem applyCurrentDir_currentDir (s : SumoState) :
    (applyCurrentDir s).1.currentDir = s.currentDir := by
  unfold applyCurrentDir
  split_ifs <;>
    simp [Forward, Backward, Left, Right, ForwardLeft, ForwardRight, BackLeft,
      BackRight, Stop, setMotors_fst]

theorem applyCurrentDir_speedLevel (s : SumoState) :
    (applyCurrentDir s).1.speedLevel = s.speedLevel := by
  unfold applyCurrentDir
  split_ifs <;>
    simp [Forward, Backward, Left, Right, ForwardLeft, ForwardRight, BackLeft,
      BackRight, Stop, setMotors_fst]

theorem commandMove_not_opposite (d : Char) (s : SumoState)
    (h : isOppositeSense s.currentDir d = false) :
    commandMove d s = applyCurrentDir { s with currentDir := d } := by
  unfold commandMove
  simp [h]

theorem commandStep_digit (d : Char) (s : SumoState) (h : '0' ≤ d ∧ d ≤ '9') :
    commandStep d s = applyCurrentDir { s with speedLevel := Int.tdiv ((((d.toNat : ℤ) - ('0'.toNat : ℤ)) * 10) * MAX_PWM) 100 } := by
  unfold commandStep
  rw [if_pos h]

theorem applyCurrentDir_eq_Forward (s : SumoState) (h : s.currentDir = 'F') :
    applyCurrentDir s = Forward s := by
  unfold applyCurrentDir
  rw [h]
  simp +decide

theorem applyCurrentDir_eq_Backward (s : SumoState) (h : s.currentDir = 'B') :
    applyCurrentDir s = Backward s := by
  unfold applyCurrentDir
  rw [h]
  simp +decide

theorem applyCurrentDir_eq_Left (s : SumoState) (h : s.currentDir = 'L') :
    applyCurrentDir s = Left s := by
  unfold applyCurrentDir
  rw [h]
  simp +decide

theorem applyCurrentDir_eq_Right (s : SumoState) (h : s.currentDir = 'R') :
    applyCurrentDir s = Right s := by
  unfold applyCurrentDir
  rw [h]
  simp +decide

theorem applyCurrentDir_eq_ForwardLeft (s : SumoState) (h : s.currentDir = 'G') :
    applyCurrentDir s = ForwardLeft s := by
  unfold applyCurrentDir
  rw [h]
  simp +decide

theorem applyCurrentDir_eq_ForwardRight (s : SumoState) (h : s.currentDir = 'I') :
    applyCurrentDir s = ForwardRight s := by
  unfold applyCurrentDir
  rw [h]
  simp +decide

theorem applyCurrentDir_eq_BackLeft (s : SumoState) (h : s.currentDir = 'H') :
    applyCurrentDir s = BackLeft s := by
  unfold applyCurrentDir
  rw [h]
  simp +decide

theorem applyCurrentDir_eq_BackRight (s : SumoState) (h : s.currentDir = 'J') :
    applyCurrentDir s = BackRight s := by
  unfold applyCurrentDir
  rw [h]
  simp +decide

theorem processChar_L_s0 : (processChar 'L' s0).1 = sL := by
  have h1 : processChar 'L' s0 = commandMove 'L' s0 := by
    unfold processChar
    rw [show toUpperAscii 'L' = 'L' from by decide]
    unfold commandStep
    rw [if_neg (by decide), if_neg (by decide), if_pos (by decide)]
  rw [h1, commandMove_not_opposite _ _ (by decide),
    applyCurrentDir_eq_Left _ rfl]
  simp only [Left]
  rw [setMotors_fst]
  decide

theorem rampLoop_216 : rampLoop 216 216 216 216 = ((216, 216), []) := by
  rw [rampLoop]
  simp

theorem processChar_R_sL :
    processChar 'R' sL =
      ({ sL with currentDir := 'R', ain1 := false, ain2 := true, bin1 := true, bin2 := false },
       [Ev.pins false true true false]) := by
  have h1 : processChar 'R' sL = commandMove 'R' sL := by
    unfold processChar
    rw [show toUpperAscii 'R' = 'R' from by decide]
    unfold commandStep
    rw [if_neg (by decide), if_neg (by decide), if_pos (by decide)]
  rw [h1, commandMove_not_opposite _ _ (by decide),
    applyCurrentDir_eq_Right _ rfl]
  simp only [Right, setMotors]
  have e1 : ({ sL with currentDir := 'R' } : SumoState).speedLevel = (255 : ℤ) := rfl
  have e2 : ({ sL with currentDir := 'R' } : SumoState).currentPWMA = (216 : ℤ) := rfl
  have e3 : ({ sL with currentDir := 'R' } : SumoState).currentPWMB = (216 : ℤ) := rfl
  rw [e1, e2, e3]
  have e4 : constrain (Int.tdiv ((255 : ℤ) * 85) 100) 0 MAX_PWM = 216 := by decide
  rw [e4, rampLoop_216]

/-- Claim C1: for successive direction commands (C, D) with C the current
state, if C is in the forward family and D in the backward family or vice
versa, processing D first drives both applied PWM values and all four
direction pins to the all-zero Stop state and holds the 60 ms brake delay
before D's movement function (and hence any nonzero target of D) runs; if
either C or D is `'S'`, `'L'` or `'R'`, the transition goes directly to D
with no intermediate Stop. -/
theorem C1_opposite_sense_brakes_through_stop (D : Char) (s : SumoState) :
    ((isForwardSense s.currentDir && isBackwardSense D) = true ∨
     (isBackwardSense s.currentDir && isForwardSense D) = true →
      commandMove D s =
        ((applyCurrentDir (stopped s D)).1,
         Ev.pwm 0 0 :: Ev.pins false false false false ::
           Ev.delayMs DIR_CHANGE_BRAKE_MS :: (applyCurrentDir (stopped s D)).2)) ∧
    (s.currentDir = 'S' ∨ D = 'S' ∨ s.currentDir = 'L' ∨ s.currentDir = 'R' ∨
       D = 'L' ∨ D = 'R' →
      commandMove D s = applyCurrentDir { s with currentDir := D }) := by
  constructor
  · intro h
    have hop := isOppositeSense_of_families _ _ h
    unfold commandMove
    simp [hop, Stop, stopped]
  · intro h
    exact commandMove_not_opposite D s (isOppositeSense_false_SLR _ _ h)

theorem C1_witness :
    ((isForwardSense sF.currentDir && isBackwardSense 'B') = true ∨
     (isBackwardSense sF.currentDir && isForwardSense 'B') = true) ∧
    commandMove 'B' sF =
      ((applyCurrentDir (stopped sF 'B')).1,
       Ev.pwm 0 0 :: Ev.pins false false false false ::
         Ev.delayMs DIR_CHANGE_BRAKE_MS :: (applyCurrentDir (stopped sF 'B')).2) ∧
    (sF.currentDir = 'S' ∨ 'L' = 'S' ∨ sF.currentDir = 'L' ∨ sF.currentDir = 'R' ∨
       ('L' : Char) = 'L' ∨ ('L' : Char) = 'R') ∧
    commandMove 'L' sF = applyCurrentDir { sF with currentDir := 'L' } :=
  ⟨Or.inl (by decide),
   (C1_opposite_sense_brakes_through_stop 'B' sF).1 (Or.inl (by decide)),
   by decide,
   (C1_opposite_sense_brakes_through_stop 'L' sF).2 (by decide)⟩

/-- Claim C2: starting inside `[0, MAX_PWM]`, one ramp iteration moves each
motor's applied PWM toward its target by exactly `RAMP_STEP` when farther
than `RAMP_STEP` away, lands exactly on the target on the final step, gets
strictly closer whenever not at target, never leaves the closed interval
between the old value and the target (no overshoot), and stays in
`[0, MAX_PWM]`; moreover every PWM value written during the whole ramp loop
stays in `[0, MAX_PWM]`. -/
theorem C2_ramp_steps_toward_target (cur target : ℤ)
    (hc0 : 0 ≤ cur) (hc1 : cur ≤ MAX_PWM) (ht0 : 0 ≤ target) (ht1 : target ≤ MAX_PWM) :
    (cur + RAMP_STEP ≤ target → rampStep1 cur target = cur + RAMP_STEP) ∧
    (target + RAMP_STEP ≤ cur → rampStep1 cur target = cur - RAMP_STEP) ∧
    (cur ≠ target → (cur - target).natAbs ≤ RAMP_STEP.natAbs →
      rampStep1 cur target = target) ∧
    (cur ≠ target → (rampStep1 cur target - target).natAbs < (cur - target).natAbs) ∧
    (min cur target ≤ rampStep1 cur target ∧ rampStep1 cur target ≤ max cur target) ∧
    (0 ≤ rampStep1 cur target ∧ rampStep1 cur target ≤ MAX_PWM) ∧
    (∀ a b ta tb : ℤ, 0 ≤ a → a ≤ MAX_PWM → 0 ≤ b → b ≤ MAX_PWM →
      0 ≤ ta → ta ≤ MAX_PWM → 0 ≤ tb → tb ≤ MAX_PWM →
      ((rampLoop a b ta tb).2.all pwmInRange) = true) := by
  refine ⟨fun h => ?_, fun h => ?_, fun h h2 => ?_, fun h => ?_, ⟨?_, ?_⟩, ⟨?_, ?_⟩,
    fun a b ta tb h1 h2 h3 h4 h5 h6 h7 h8 =>
      rampLoop_all_pwmInRange a b ta tb h1 h2 h3 h4 h5 h6 h7 h8⟩ <;>
  · unfold rampStep1 RAMP_STEP MAX_PWM at *
    split <;> (try split) <;> omega

theorem C2_witness :
    ((0 : ℤ) ≤ 10 ∧ (10 : ℤ) ≤ MAX_PWM ∧ (0 : ℤ) ≤ 255 ∧ (255 : ℤ) ≤ MAX_PWM) ∧
    (((10 : ℤ) + RAMP_STEP ≤ 255 → rampStep1 10 255 = 10 + RAMP_STEP) ∧
     ((255 : ℤ) + RAMP_STEP ≤ 10 → rampStep1 10 255 = 10 - RAMP_STEP) ∧
     ((10 : ℤ) ≠ 255 → ((10 : ℤ) - 255).natAbs ≤ RAMP_STEP.natAbs →
       rampStep1 10 255 = 255) ∧
     ((10 : ℤ) ≠ 255 → (rampStep1 10 255 - 255).natAbs < ((10 : ℤ) - 255).natAbs) ∧
     (min (10 : ℤ) 255 ≤ rampStep1 10 255 ∧ rampStep1 10 255 ≤ max (10 : ℤ) 255) ∧
     (0 ≤ rampStep1 10 255 ∧ rampStep1 10 255 ≤ MAX_PWM) ∧
     (∀ a b ta tb : ℤ, 0 ≤ a → a ≤ MAX_PWM → 0 ≤ b → b ≤ MAX_PWM →
       0 ≤ ta → ta ≤ MAX_PWM → 0 ≤ tb → tb ≤ MAX_PWM →
       ((rampLoop a b ta tb).2.all pwmInRange) = true)) :=
  ⟨by decide, C2_ramp_steps_toward_target 10 255 (by decide) (by decide)
    (by decide) (by decide)⟩

/-- Claim C4: each movement function is the fixed mapping described by the
spec — Forward/Backward drive both motors at the full speed scale with the
same polarity; in-place Left/Right drive both motors at `(speedLevel*85)/100`
with opposite polarity between the two motors; the four diagonal curves
drive one motor at full `speedLevel` and the other at `speedLevel/2` with
the same polarity as the corresponding straight motion. -/
theorem C4_movement_function_mappings (s : SumoState)
    (h0 : 0 ≤ s.speedLevel) (h1 : s.speedLevel ≤ MAX_PWM) :
    drivesTo (Forward s) s.speedLevel s.speedLevel true false true false ∧
    drivesTo (Backward s) s.speedLevel s.speedLevel false true false true ∧
    drivesTo (Left s) (Int.tdiv (s.speedLevel * 85) 100) (Int.tdiv (s.speedLevel * 85) 100) true false false true ∧
    drivesTo (Right s) (Int.tdiv (s.speedLevel * 85) 100) (Int.tdiv (s.speedLevel * 85) 100) false true true false ∧
    drivesTo (ForwardLeft s) (Int.tdiv s.speedLevel 2) s.speedLevel true false true false ∧
    drivesTo (ForwardRight s) s.speedLevel (Int.tdiv s.speedLevel 2) true false true false ∧
    drivesTo (BackLeft s) (Int.tdiv s.speedLevel 2) s.speedLevel false true false true ∧
    drivesTo (BackRight s) s.speedLevel (Int.tdiv s.speedLevel 2) false true false true := by
  obtain ⟨t0, t1, u0, u1⟩ := turn_tdiv_bounds s.speedLevel h0 h1
  have e1 := constrain_eq_self s.speedLevel 0 MAX_PWM h0 h1
  have e2 := constrain_eq_self (Int.tdiv (s.speedLevel * 85) 100) 0 MAX_PWM t0 t1
  have e3 := constrain_eq_self (Int.tdiv s.speedLevel 2) 0 MAX_PWM u0 u1
  refine ⟨?_, ?_, ?_, ?_, ?_, ?_, ?_, ?_⟩ <;>
    simp [drivesTo, Forward, Backward, Left, Right, ForwardLeft, ForwardRight,
      BackLeft, BackRight, setMotors_fst, e1, e2, e3]

theorem C4_witness :
    ((0 : ℤ) ≤ s0.speedLevel ∧ s0.speedLevel ≤ MAX_PWM) ∧
    (drivesTo (Forward s0) s0.speedLevel s0.speedLevel true false true false ∧
     drivesTo (Backward s0) s0.speedLevel s0.speedLevel false true false true ∧
     drivesTo (Left s0) (Int.tdiv (s0.speedLevel * 85) 100) (Int.tdiv (s0.speedLevel * 85) 100) true false false true ∧
     drivesTo (Right s0) (Int.tdiv (s0.speedLevel * 85) 100) (Int.tdiv (s0.speedLevel * 85) 100) false true true false ∧
     drivesTo (ForwardLeft s0) (Int.tdiv s0.speedLevel 2) s0.speedLevel true false true false ∧
     drivesTo (ForwardRight s0) s0.speedLevel (Int.tdiv s0.speedLevel 2) true false true false ∧
     drivesTo (BackLeft s0) (Int.tdiv s0.speedLevel 2) s0.speedLevel false true false true ∧
     drivesTo (BackRight s0) s0.speedLevel (Int.tdiv s0.speedLevel 2) false true false true) :=
  ⟨⟨by decide, by decide⟩, C4_movement_function_mappings s0 (by decide) (by decide)⟩

/-- Claim C5: a digit command `'0'`–`'9'` sets the speed scale to
`digit*10` percent of `MAX_PWM` through the linear map `0–100 → 0–MAX_PWM`
(`map(pct,0,100,0,MAX_PWM) = pct*MAX_PWM/100`), `'Q'` sets it to exactly
`MAX_PWM`; both leave the current direction unchanged and re-apply the
current direction's movement function at the new scale. -/
theorem C5_speed_commands_reapply_direction (d : Char) (s : SumoState) :
    (d ∈ ['0', '1', '2', '3', '4', '5', '6', '7', '8', '9'] →
      processChar d s = applyCurrentDir { s with speedLevel := Int.tdiv ((((d.toNat : ℤ) - ('0'.toNat : ℤ)) * 10) * MAX_PWM) 100 } ∧
      (processChar d s).1.currentDir = s.currentDir ∧
      (processChar d s).1.speedLevel = Int.tdiv ((((d.toNat : ℤ) - ('0'.toNat : ℤ)) * 10) * MAX_PWM) 100) ∧
    (processChar 'Q' s = applyCurrentDir { s with speedLevel := MAX_PWM } ∧
     (processChar 'Q' s).1.currentDir = s.currentDir ∧
     (processChar 'Q' s).1.speedLevel = MAX_PWM) := by
  constructor
  · intro hd
    have h1 : toUpperAscii d = d := by fin_cases hd <;> decide
    have h2 : '0' ≤ d ∧ d ≤ '9' := by fin_cases hd <;> decide
    have h3 : processChar d s = commandStep d s := by unfold processChar; rw [h1]
    rw [h3, commandStep_digit d s h2]
    exact ⟨rfl, by rw [applyCurrentDir_currentDir], by rw [applyCurrentDir_speedLevel]⟩
  · have h1 : processChar 'Q' s = commandStep 'Q' s := by
      unfold processChar
      rw [show toUpperAscii 'Q' = 'Q' from by decide]
    have h2 : commandStep 'Q' s = applyCurrentDir { s with speedLevel := MAX_PWM } := by
      unfold commandStep
      rw [if_neg (by decide), if_pos rfl]
    rw [h1, h2]
    exact ⟨rfl, by rw [applyCurrentDir_currentDir], by rw [applyCurrentDir_speedLevel]⟩

theorem C5_witness :
    ('3' ∈ ['0', '1', '2', '3', '4', '5', '6', '7', '8', '9']) ∧
    (processChar '3' s0 = applyCurrentDir { s0 with speedLevel := Int.tdiv (((('3'.toNat : ℤ) - ('0'.toNat : ℤ)) * 10) * MAX_PWM) 100 } ∧
     (processChar '3' s0).1.currentDir = s0.currentDir ∧
     (processChar '3' s0).1.speedLevel = Int.tdiv (((('3'.toNat : ℤ) - ('0'.toNat : ℤ)) * 10) * MAX_PWM) 100) :=
  ⟨by decide, (C5_speed_commands_reapply_direction '3' s0).1 (by decide)⟩

/-- Claim C6: every pin-write event emitted by any movement function, by
`Stop`, by `commandMove` or by a whole command-processing step drives each
motor's direction-pin pair to `(HIGH,LOW)`, `(LOW,HIGH)` or `(LOW,LOW)` —
never both pins HIGH. -/
theorem C6_pin_pairs_never_both_high :
    (∀ (c : Char) (s : SumoState), ((processChar c s).2.all pinsOkB) = true) ∧
    (∀ s : SumoState, ((Forward s).2.all pinsOkB) = true) ∧
    (∀ s : SumoState, ((Backward s).2.all pinsOkB) = true) ∧
    (∀ s : SumoState, ((Left s).2.all pinsOkB) = true) ∧
    (∀ s : SumoState, ((Right s).2.all pinsOkB) = true) ∧
    (∀ s : SumoState, ((ForwardLeft s).2.all pinsOkB) = true) ∧
    (∀ s : SumoState, ((ForwardRight s).2.all pinsOkB) = true) ∧
    (∀ s : SumoState, ((BackLeft s).2.all pinsOkB) = true) ∧
    (∀ s : SumoState, ((BackRight s).2.all pinsOkB) = true) ∧
    (∀ s : SumoState, (( Stop s).2.all pinsOkB) = true) ∧
    (∀ (d : Char) (s : SumoState), ((commandMove d s).2.all pinsOkB) = true) :=
  ⟨processChar_all_pinsOk,
   fun _ => setMotors_all_pinsOk _ _ _ _ _ _ _ (by decide),
   fun _ => setMotors_all_pinsOk _ _ _ _ _ _ _ (by decide),
   fun _ => setMotors_all_pinsOk _ _ _ _ _ _ _ (by decide),
   fun _ => setMotors_all_pinsOk _ _ _ _ _ _ _ (by decide),
   fun _ => setMotors_all_pinsOk _ _ _ _ _ _ _ (by decide),
   fun _ => setMotors_all_pinsOk _ _ _ _ _ _ _ (by decide),
   fun _ => setMotors_all_pinsOk _ _ _ _ _ _ _ (by decide),
   fun _ => setMotors_all_pinsOk _ _ _ _ _ _ _ (by decide),
   Stop_all_pinsOk,
   commandMove_all_pinsOk⟩

/-- Claim C9: `setMotors` clamps each integer target into `[0, MAX_PWM]` and
its ramp loop terminates with both motors' applied PWM values equal to the
clamped targets; equivalently the ramp loop's final value pair is exactly
the target pair. -/
theorem C9_setMotors_clamps_and_reaches_targets (targetA targetB : ℤ)
    (a1 a2 b1 b2 : Bool) (s : SumoState) :
    (setMotors targetA targetB a1 a2 b1 b2 s).1.currentPWMA = constrain targetA 0 MAX_PWM ∧
    (setMotors targetA targetB a1 a2 b1 b2 s).1.currentPWMB = constrain targetB 0 MAX_PWM ∧
    (rampLoop s.currentPWMA s.currentPWMB (constrain targetA 0 MAX_PWM) (constrain targetB 0 MAX_PWM)).1
      = (constrain targetA 0 MAX_PWM, constrain targetB 0 MAX_PWM) := by
  rw [setMotors_fst]
  exact ⟨rfl, rfl, rampLoop_fst _ _ _ _⟩

/-- Claim C10: lateral turns are not opposite-sense to anything, so a
transition such as `'L'` then `'R'` reverses both motors' pin polarity with
the pin write as the very first emitted event — before any PWM change, with
no Stop, no brake delay and no ramp-down; concretely, from the state reached
by `'L'` at full scale (both PWM at 216), processing `'R'` emits exactly one
event, the inverted pin write, and leaves both applied PWM values at 216. -/
theorem C10_polarity_reversal_without_brake :
    (∀ (D : Char) (s : SumoState), isOppositeSense s.currentDir D = false →
      D = 'F' ∨ D = 'B' ∨ D = 'L' ∨ D = 'R' ∨ D = 'G' ∨ D = 'I' ∨ D = 'H' ∨ D = 'J' →
      ∃ a1 a2 b1 b2 rest, (commandMove D s).2 = Ev.pins a1 a2 b1 b2 :: rest) ∧
    isOppositeSense 'L' 'R' = false ∧
    (processChar 'L' s0).1 = sL ∧
    sL.currentPWMA = 216 ∧ sL.currentPWMB = 216 ∧
    processChar 'R' sL =
      ({ sL with currentDir := 'R', ain1 := false, ain2 := true, bin1 := true, bin2 := false },
       [Ev.pins false true true false]) := by
  refine ⟨?_, by decide, processChar_L_s0, rfl, rfl, processChar_R_sL⟩
  intro D s hop hD
  rw [commandMove_not_opposite _ _ hop]
  rcases hD with h | h | h | h | h | h | h | h <;> subst h
  · rw [applyCurrentDir_eq_Forward _ rfl]
    exact ⟨_, _, _, _, _, rfl⟩
  · rw [applyCurrentDir_eq_Backward _ rfl]
    exact ⟨_, _, _, _, _, rfl⟩
  · rw [applyCurrentDir_eq_Left _ rfl]
    exact ⟨_, _, _, _, _, rfl⟩
  · rw [applyCurrentDir_eq_Right _ rfl]
    exact ⟨_, _, _, _, _, rfl⟩
  · rw [applyCurrentDir_eq_ForwardLeft _ rfl]
    exact ⟨_, _, _, _, _, rfl⟩
  · rw [applyCurrentDir_eq_ForwardRight _ rfl]
    exact ⟨_, _, _, _, _, rfl⟩
  · rw [applyCurrentDir_eq_BackLeft _ rfl]
    exact ⟨_, _, _, _, _, rfl⟩
  · rw [applyCurrentDir_eq_BackRight _ rfl]
    exact ⟨_, _, _, _, _, rfl⟩

theorem C10_witness :
    isOppositeSense sL.currentDir 'R' = false ∧
    (('R' : Char) = 'F' ∨ ('R' : Char) = 'B' ∨ ('R' : Char) = 'L' ∨ ('R' : Char) = 'R' ∨
     ('R' : Char) = 'G' ∨ ('R' : Char) = 'I' ∨ ('R' : Char) = 'H' ∨ ('R' : Char) = 'J') ∧
    (∃ a1 a2 b1 b2 rest, (commandMove 'R' sL).2 = Ev.pins a1 a2 b1 b2 :: rest) :=
  ⟨by decide, by decide,
   C10_polarity_reversal_without_brake.1 'R' sL (by decide) (by decide)⟩

end FutbolSumo

namespace TelemSeguidor

/-- The mutable globals of `Telem_Seguidor.ino`: PID gains `KP`, `KD`
(`float`, modelled as `ℚ`), `MAX_SPEED`, telemetry interval, the `running`
flag, the PID memory `lastError`, the telemetry snapshot
`lastPosition`/`lastM1`/`lastM2`, and the speeds last commanded to
`motors.setSpeeds`. -/
structure TState where
  KP : ℚ
  KD : ℚ
  MAX_SPEED : ℤ
  TELEM_INTERVAL_MS : ℕ
  running : Bool
  lastError : ℤ
  lastPosition : ℤ
  lastM1 : ℤ
  lastM2 : ℤ
  motorM1 : ℤ
  motorM2 : ℤ
deriving DecidableEq

/-- The initial values of the globals at boot. -/
def telemInit : TState :=
  { KP := 1/4, KD := 6, MAX_SPEED := 400, TELEM_INTERVAL_MS := 100,
    running := false, lastError := 0, lastPosition := 0,
    lastM1 := 0, lastM2 := 0, motorM1 := 0, motorM2 := 0 }

/-- `telemInit` after a `START` command (the precondition of claim C3's
concrete trace: kp=0.25, kd=6.0, maxSpeed=400, lastError=0, running). -/
def sRun : TState := { telemInit with running := true, lastError := 0 }

/-- The C cast `(int)(q)` applied to a real value: truncation toward zero.
On a rational in lowest terms this is the truncating division of numerator
by denominator. -/
def castInt (q : ℚ) : ℤ := Int.tdiv q.num (q.den : ℤ)

/-- `speedDiff = (int)(KP * error) + (int)(KD * (error - lastError))` with
`error = position - 2500`; the subtraction `error - lastError` is integer
arithmetic, each product is `float` and each cast truncates. -/
def pidSpeedDiff (position : ℤ) (s : TState) : ℤ :=
  castInt (s.KP * ((position - 2500 : ℤ) : ℚ)) +
  castInt (s.KD * ((position - 2500 - s.lastError : ℤ) : ℚ))

/-- One control tick of `loop()` while `running`: compute
`error = position - 2500`, the PD `speedDiff`, update `lastError`, clamp
`m1 = constrain(MAX_SPEED + speedDiff, 0, MAX_SPEED)` and
`m2 = constrain(MAX_SPEED - speedDiff, 0, MAX_SPEED)`, command the motors
and record the telemetry snapshot.  When not running the tick does
nothing. -/
def pidTick (position : ℤ) (s : TState) : TState :=
  if s.running then
    let error := position - 2500
    let speedDiff := pidSpeedDiff position s
    let m1Speed := constrain (s.MAX_SPEED + speedDiff) 0 s.MAX_SPEED
    let m2Speed := constrain (s.MAX_SPEED - speedDiff) 0 s.MAX_SPEED
    { s with lastError := error, lastPosition := position,
             lastM1 := m1Speed, lastM2 := m2Speed,
             motorM1 := m1Speed, motorM2 := m2Speed }
  else s

/-- Arduino `String::startsWith`: the second list is a leading segment of
the first. -/
def startsWithL : List Char → List Char → Bool
  | _, [] => true
  | [], _ :: _ => false
  | c :: cs, p :: ps => if c = p then startsWithL cs ps else false

/-- Arduino `String::indexOf(ch)`: index of the first occurrence, `-1` when
absent. -/
def indexOfC (ch : Char) : List Char → ℤ
  | [] => -1
  | c :: cs =>
    if c = ch then 0
    else
      let r := indexOfC ch cs
      if r = -1 then -1 else r + 1

/-- The value of a maximal leading run of decimal digits, accumulating onto
`acc`; stops at the first non-digit (as `atol`/`atof` do). -/
def digitsVal : List Char → ℤ → ℤ
  | [], acc => acc
  | c :: cs, acc =>
    if '0' ≤ c ∧ c ≤ '9' then digitsVal cs (acc * 10 + ((c.toNat : ℤ) - ('0'.toNat : ℤ)))
    else acc

/-- Arduino `String::toInt` (C `atol`): skip leading whitespace, optional
sign, then leading digits; yields 0 when no digits are present. -/
def atol (s : List Char) : ℤ :=
  let s1 := s.dropWhile fun c => decide (c = ' ' ∨ c = '\t')
  match s1 with
  | '-' :: rest => - digitsVal rest 0
  | '+' :: rest => digitsVal rest 0
  | _ => digitsVal s1 0

/-- Fractional digits of `atof`: each digit contributes at the next smaller
power of ten; stops at the first non-digit. -/
def atofFrac : List Char → ℚ → ℚ → ℚ
  | [], acc, _ => acc
  | c :: cs, acc, sc =>
    if '0' ≤ c ∧ c ≤ '9' then
      atofFrac cs (acc + sc * (((c.toNat : ℤ) - ('0'.toNat : ℤ) : ℤ) : ℚ)) (sc / 10)
    else acc

/-- Decimal-digit test used by the `atof` parser. -/
def isDigitB (c : Char) : Bool := decide ('0' ≤ c ∧ c ≤ '9')

/-- Whether an exponent part has at least one digit; `strtod` requires one
after `e`/`E` (and its optional sign), otherwise it backtracks to the
significand alone. -/
def hasLeadingDigit : List Char → Bool
  | c :: _ => isDigitB c
  | [] => false

/-- The exponent after `e`/`E`: an optional sign then digits, scaling the
significand by the corresponding power of ten; without a leading digit the
significand is kept unchanged (`strtod`'s backtracking). -/
def applyExpSigned (m : ℚ) (r : List Char) : ℚ :=
  match r with
  | '-' :: ds => if hasLeadingDigit ds then m / 10 ^ (digitsVal ds 0).toNat else m
  | '+' :: ds => if hasLeadingDigit ds then m * 10 ^ (digitsVal ds 0).toNat else m
  | ds => if hasLeadingDigit ds then m * 10 ^ (digitsVal ds 0).toNat else m

/-- The optional `e`/`E` exponent of `strtod`'s decimal form, applied to the
already-parsed significand. -/
def applyExp (m : ℚ) (rest : List Char) : ℚ :=
  match rest with
  | 'e' :: r => applyExpSigned m r
  | 'E' :: r => applyExpSigned m r
  | _ => m

/-- Magnitude part of `atof`: integer digits, an optional `'.'` with
fractional digits, then an optional `e`/`E` exponent. -/
def atofPos (s : List Char) : ℚ :=
  let ipart := digitsVal (s.takeWhile isDigitB) 0
  let rest := s.dropWhile isDigitB
  match rest with
  | '.' :: frac => applyExp ((ipart : ℚ) + atofFrac frac 0 (1/10)) (frac.dropWhile isDigitB)
  | r => applyExp (ipart : ℚ) r

/-- Arduino `String::toFloat` (C `atof`/`strtod`, decimal forms), modelled
with exact rational arithmetic in place of IEEE `float`: skip leading
whitespace, optional sign, decimal digits with optional fraction, optional
`e`/`E` exponent with optional sign (missing exponent digits backtrack, as
in `strtod`); yields 0 when nothing parses.  Binary rounding, `float`
overflow, and `strtod`'s hexadecimal and INF/NAN forms — whose values are
not rational — are not modelled; the claims settled against this definition
depend on which texts parse and on values that are exact in `float`. -/
def atof (s : List Char) : ℚ :=
  let s1 := s.dropWhile fun c => decide (c = ' ' ∨ c = '\t')
  match s1 with
  | '-' :: rest => - atofPos rest
  | '+' :: rest => atofPos rest
  | _ => atofPos s1

/-- The structured serial replies of `processCommand` (the JSON strings,
abstracted to their tag and payload). -/
inductive Out where
  | runningMsg
  | stoppedMsg
  | pidOk (kp kd : ℚ)
  | errPidFormat
  | speedOk (n : ℤ)
  | errSpeedRange
  | intervalOk (ms : ℕ)
  | errIntervalRange
  | paramsMsg (kp kd : ℚ) (maxSpeed : ℤ) (intervalMs : ℕ)
  | unknownCmd (cmd : List Char)
deriving DecidableEq

/-- `processCommand(cmd)`: dispatch on the (already trimmed, nonempty)
command line.  `START`/`STOP` toggle the running flag; `PID:` parses two
floats when a comma is present at positive index, else reports a format
error; `SPEED:` accepts 0–400; `INTERVAL:` converts `toInt`'s result to
`unsigned long` (mod 2^32) and accepts 10–10000; `PARAMS` reports the
parameter snapshot; anything else is UNKNOWN. -/
def processCommand (cmd : List Char) (s : TState) : TState × List Out :=
  if cmd = ['S', 'T', 'A', 'R', 'T'] then
    ({ s with running := true, lastError := 0 }, [Out.runningMsg])
  else if cmd = ['S', 'T', 'O', 'P'] then
    ({ s with running := false, motorM1 := 0, motorM2 := 0 }, [Out.stoppedMsg])
  else if startsWithL cmd ['P', 'I', 'D', ':'] then
    let params := cmd.drop 4
    let comma := indexOfC ',' params
    if comma > 0 then
      let kp := atof (params.take comma.toNat)
      let kd := atof (params.drop (comma.toNat + 1))
      ({ s with KP := kp, KD := kd }, [Out.pidOk kp kd])
    else (s, [Out.errPidFormat])
  else if startsWithL cmd ['S', 'P', 'E', 'E', 'D', ':'] then
    let spd := atol (cmd.drop 6)
    if 0 ≤ spd ∧ spd ≤ 400 then
      ({ s with MAX_SPEED := spd }, [Out.speedOk spd])
    else (s, [Out.errSpeedRange])
  else if startsWithL cmd ['I', 'N', 'T', 'E', 'R', 'V', 'A', 'L', ':'] then
    let iv := atol (cmd.drop 9) % (2 ^ 32 : ℤ)
    if 10 ≤ iv ∧ iv ≤ 10000 then
      ({ s with TELEM_INTERVAL_MS := iv.toNat }, [Out.intervalOk iv.toNat])
    else (s, [Out.errIntervalRange])
  else if cmd = ['P', 'A', 'R', 'A', 'M', 'S'] then
    (s, [Out.paramsMsg s.KP s.KD s.MAX_SPEED s.TELEM_INTERVAL_MS])
  else (s, [Out.unknownCmd cmd])

/-- The four successive control ticks of claim C3's concrete trace, for the
position sequence `[2500, 2500, 3000, 2000]` starting from `sRun`. -/
def pidT1 : TState := pidTick 2500 sRun

def pidT2 : TState := pidTick 2500 pidT1

def pidT3 : TState := pidTick 3000 pidT2

def pidT4 : TState := pidTick 2000 pidT3

theorem castInt_intCast (n : ℤ) : castInt ((n : ℤ) : ℚ) = n := by
  unfold castInt
  have h1 : ((n : ℚ)).num = n := rfl
  have h2 : ((n : ℚ)).den = 1 := rfl
  rw [h1, h2]
  simp

theorem pidTick_run (position : ℤ) (st : TState) (hrun : st.running = true) :
    pidTick position st =
      { st with lastError := position - 2500, lastPosition := position,
                lastM1 := constrain (st.MAX_SPEED + pidSpeedDiff position st) 0 st.MAX_SPEED,
                lastM2 := constrain (st.MAX_SPEED - pidSpeedDiff position st) 0 st.MAX_SPEED,
                motorM1 := constrain (st.MAX_SPEED + pidSpeedDiff position st) 0 st.MAX_SPEED,
                motorM2 := constrain (st.MAX_SPEED - pidSpeedDiff position st) 0 st.MAX_SPEED } := by
  unfold pidTick
  rw [if_pos hrun]

theorem pid_branch (ds : List Char) (s : TState) :
    processCommand ('P' :: 'I' :: 'D' :: ':' :: ds) s =
      if 0 < indexOfC ',' ds then
        ({ s with KP := atof (ds.take (indexOfC ',' ds).toNat),
                  KD := atof (ds.drop ((indexOfC ',' ds).toNat + 1)) },
         [Out.pidOk (atof (ds.take (indexOfC ',' ds).toNat))
            (atof (ds.drop ((indexOfC ',' ds).toNat + 1)))])
      else (s, [Out.errPidFormat]) := by
  have f1 : ('P' :: 'I' :: 'D' :: ':' :: ds : List Char) ≠ ['S', 'T', 'A', 'R', 'T'] := by
    simp +decide
  have f2 : ('P' :: 'I' :: 'D' :: ':' :: ds : List Char) ≠ ['S', 'T', 'O', 'P'] := by
    simp +decide
  have f3 : startsWithL ('P' :: 'I' :: 'D' :: ':' :: ds) ['P', 'I', 'D', ':'] = true := by
    simp +decide [startsWithL]
  unfold processCommand
  simp [f1, f2, f3]

/-- Claim C3: on every running tick, `error = position − 2500`, `lastError`
is updated to `error`, and the wheel speeds are the clamps
`m1 = clamp(maxSpeed + speedDiff, 0, maxSpeed)`,
`m2 = clamp(maxSpeed − speedDiff, 0, maxSpeed)` of the PD `speedDiff`;
whenever both PD products are integers (as in the concrete trace) the
computed `speedDiff` equals `kp·error + kd·(error − lastError)` exactly;
and for positions `[2500, 2500, 3000, 2000]` from kp=0.25, kd=6.0,
maxSpeed=400, lastError=0, the error sequence is `[0, 0, 500, −500]` with
speedDiff 3125 then −6125 and clamped speeds (400,400), (400,400), (400,0),
(0,400), matching the formula exactly. -/
theorem C3_pid_tick_formula_and_trace :
    (∀ (position : ℤ) (st : TState), st.running = true → 0 ≤ st.MAX_SPEED →
      (pidTick position st).lastError = position - 2500 ∧
      (pidTick position st).lastM1 = max 0 (min (st.MAX_SPEED + pidSpeedDiff position st) st.MAX_SPEED) ∧
      (pidTick position st).lastM2 = max 0 (min (st.MAX_SPEED - pidSpeedDiff position st) st.MAX_SPEED) ∧
      (∀ a b : ℤ, st.KP * ((position - 2500 : ℤ) : ℚ) = (a : ℚ) →
        st.KD * ((position - 2500 - st.lastError : ℤ) : ℚ) = (b : ℚ) →
        ((pidSpeedDiff position st : ℤ) : ℚ) =
          st.KP * ((position - 2500 : ℤ) : ℚ) + st.KD * ((position - 2500 - st.lastError : ℤ) : ℚ))) ∧
    (pidT1.lastError = 0 ∧ pidT1.lastM1 = 400 ∧ pidT1.lastM2 = 400) ∧
    (pidT2.lastError = 0 ∧ pidT2.lastM1 = 400 ∧ pidT2.lastM2 = 400) ∧
    (pidT3.lastError = 500 ∧ pidT3.lastM1 = 400 ∧ pidT3.lastM2 = 0 ∧
      pidSpeedDiff 3000 pidT2 = 3125 ∧
      ((pidSpeedDiff 3000 pidT2 : ℤ) : ℚ) =
        pidT2.KP * ((3000 - 2500 : ℤ) : ℚ) + pidT2.KD * ((3000 - 2500 - pidT2.lastError : ℤ) : ℚ)) ∧
    (pidT4.lastError = -500 ∧ pidT4.lastM1 = 0 ∧ pidT4.lastM2 = 400 ∧
      pidSpeedDiff 2000 pidT3 = -6125 ∧
      ((pidSpeedDiff 2000 pidT3 : ℤ) : ℚ) =
        pidT3.KP * ((2000 - 2500 : ℤ) : ℚ) + pidT3.KD * ((2000 - 2500 - pidT3.lastError : ℤ) : ℚ)) := by
  refine ⟨?_, ⟨?_, ?_, ?_⟩, ⟨?_, ?_, ?_⟩, ⟨?_, ?_, ?_, ?_, ?_⟩, ⟨?_, ?_, ?_, ?_, ?_⟩⟩
  · intro position st hrun hms
    rw [pidTick_run position st hrun]
    refine ⟨rfl, FutbolSumo.constrain_eq_clamp _ _ hms,
      FutbolSumo.constrain_eq_clamp _ _ hms, ?_⟩
    intro a b ha hb
    unfold pidSpeedDiff
    rw [ha, hb, castInt_intCast, castInt_intCast]
    push_cast
    ring
  all_goals with_unfolding_all rfl

theorem C3_witness :
    (sRun.running = true ∧ (0 : ℤ) ≤ sRun.MAX_SPEED) ∧
    ((pidTick 3000 sRun).lastError = 3000 - 2500 ∧
     (pidTick 3000 sRun).lastM1 = max 0 (min (sRun.MAX_SPEED + pidSpeedDiff 3000 sRun) sRun.MAX_SPEED) ∧
     (pidTick 3000 sRun).lastM2 = max 0 (min (sRun.MAX_SPEED - pidSpeedDiff 3000 sRun) sRun.MAX_SPEED) ∧
     (∀ a b : ℤ, sRun.KP * ((3000 - 2500 : ℤ) : ℚ) = (a : ℚ) →
       sRun.KD * ((3000 - 2500 - sRun.lastError : ℤ) : ℚ) = (b : ℚ) →
       ((pidSpeedDiff 3000 sRun : ℤ) : ℚ) =
         sRun.KP * ((3000 - 2500 : ℤ) : ℚ) + sRun.KD * ((3000 - 2500 - sRun.lastError : ℤ) : ℚ))) :=
  ⟨⟨rfl, by decide⟩, C3_pid_tick_formula_and_trace.1 3000 sRun rfl (by decide)⟩

/-- Claim C8 is false as stated: `PID:x,y` has both numeric fields
unparseable, yet the code — which only checks for a comma at positive
index — emits `PID_OK` (not a structured error) and overwrites both gains
with 0, changing the control state. -/
theorem C8_counterexample :
    (processCommand ['P', 'I', 'D', ':', 'x', ',', 'y'] telemInit).2 = [Out.pidOk 0 0] ∧
    (processCommand ['P', 'I', 'D', ':', 'x', ',', 'y'] telemInit).1.KP = 0 ∧
    (processCommand ['P', 'I', 'D', ':', 'x', ',', 'y'] telemInit).1.KD = 0 ∧
    telemInit.KP = 1 / 4 ∧ telemInit.KD = 6 ∧ (0 : ℚ) ≠ 1 / 4 ∧ (0 : ℚ) ≠ 6 ∧
    Out.pidOk 0 0 ≠ Out.errPidFormat :=
  ⟨by with_unfolding_all rfl, by with_unfolding_all rfl, by with_unfolding_all rfl,
   rfl, rfl, by norm_num, by norm_num, fun h => Out.noConfusion h⟩

/-- Claim C8 (amended): the error/success decision of a `PID:` command
depends only on the comma position, never on whether the numeric fields
parse: with no comma at positive index in the parameter text the command
emits the format error and leaves the whole state — both gains included —
unchanged; with a comma at positive index it always emits `PID_OK` and
overwrites both gains with the float-parse of the two fields, unparseable
text parsing as 0.0.  Concretely `PID:0.25,6.0` sets gains (0.25, 6),
`PID:1e1,25e-2` sets (10, 0.25), `PID:x,y` sets (0, 0) — each with
`PID_OK` — while `PID:xy` emits the error and changes nothing. -/
theorem C8_pid_error_iff_no_comma (ds : List Char) (s : TState) :
    (indexOfC ',' ds ≤ 0 →
      processCommand ('P' :: 'I' :: 'D' :: ':' :: ds) s = (s, [Out.errPidFormat])) ∧
    (0 < indexOfC ',' ds →
      ∃ kp kd, processCommand ('P' :: 'I' :: 'D' :: ':' :: ds) s =
        ({ s with KP := kp, KD := kd }, [Out.pidOk kp kd])) ∧
    (processCommand ['P', 'I', 'D', ':', '0', '.', '2', '5', ',', '6', '.', '0'] s =
       ({ s with KP := 1 / 4, KD := 6 }, [Out.pidOk (1 / 4) 6]) ∧
     processCommand ['P', 'I', 'D', ':', '1', 'e', '1', ',', '2', '5', 'e', '-', '2'] s =
       ({ s with KP := 10, KD := 1 / 4 }, [Out.pidOk 10 (1 / 4)]) ∧
     processCommand ['P', 'I', 'D', ':', 'x', 'y'] s = (s, [Out.errPidFormat]) ∧
     processCommand ['P', 'I', 'D', ':', 'x', ',', 'y'] s =
       ({ s with KP := 0, KD := 0 }, [Out.pidOk 0 0])) := by
  refine ⟨fun h => ?_, fun h => ?_, by with_unfolding_all rfl,
    by with_unfolding_all rfl, by with_unfolding_all rfl, by with_unfolding_all rfl⟩
  · rw [pid_branch, if_neg (by omega)]
  · exact ⟨_, _, by rw [pid_branch, if_pos h]⟩

theorem C8_witness :
    (indexOfC ',' ['x', 'y'] ≤ 0) ∧
    processCommand ('P' :: 'I' :: 'D' :: ':' :: ['x', 'y']) telemInit =
      (telemInit, [Out.errPidFormat]) ∧
    (0 < indexOfC ',' ['0', '.', '2', '5', ',', '6', '.', '0']) ∧
    (∃ kp kd, processCommand ('P' :: 'I' :: 'D' :: ':' :: ['0', '.', '2', '5', ',', '6', '.', '0']) telemInit =
       ({ telemInit with KP := kp, KD := kd }, [Out.pidOk kp kd])) :=
  ⟨by decide, (C8_pid_error_iff_no_comma ['x', 'y'] telemInit).1 (by decide),
   by decide, (C8_pid_error_iff_no_comma ['0', '.', '2', '5', ',', '6', '.', '0'] telemInit).2.1 (by decide)⟩

end TelemSeguidor
